import Mathlib

/-!
Shallow embedding of `src/nanonis_io.py` (class `SpmImage`): the two-phase
decoder for Nanonis `.sxm` scanning-probe-microscopy files.

Modelling conventions:
* A file is a `List Char`; each character is the Latin-1 decoding of one byte
  (Latin-1 maps byte `b` to the character with code point `b`, bijectively),
  so the byte value of a character is `Char.toNat`.
* Python `str` operations used by the source (`strip`, `split`, `splitlines`
  behaviour of text-mode iteration, `replace`, `lower`) are re-implemented
  below on `List Char` with Python's semantics, restricted to the Latin-1
  range that file contents can contain.
* Python exceptions raised (or raisable) on the decode paths are modelled by
  `Except DecodeError`; the error names follow the spec's taxonomy, with
  `indexError` / `unpackMismatch` standing for Python's `IndexError` /
  unpacking `ValueError`, which the spec taxonomy does not name.
* `float` values parsed from text are kept as exact rationals (plus inf/nan
  markers); none of the decode logic computes with them, it only stores them.
  Binary float32 payload values are kept as their raw 4-byte groups, never
  interpreted arithmetically.
-/

/-- Python `str` whitespace within the Latin-1 range: the characters for which
`str.isspace()` holds (and which `str.strip()` removes). -/
def pyIsSpaceChar (c : Char) : Bool :=
  [9, 10, 11, 12, 13, 28, 29, 30, 31, 32, 133, 160].contains c.toNat

/-- ASCII whitespace stripped by Python `bytes.strip()`. -/
def bytesIsSpaceChar (c : Char) : Bool :=
  [9, 10, 11, 12, 13, 32].contains c.toNat

/-- Remove leading and trailing characters satisfying `p` (the shape of both
Python `str.strip()` and `bytes.strip()`). -/
def stripList (p : Char → Bool) (l : List Char) : List Char :=
  ((l.dropWhile p).reverse.dropWhile p).reverse

/-- Python `str.strip()` on a Latin-1 string. -/
def pyStrip (s : String) : String :=
  String.mk (stripList pyIsSpaceChar s.data)

/-- Split a character list at every character satisfying `p`, keeping empty
segments (the behaviour of Python `str.split(sep)` for one-character `sep`). -/
def splitByPred (p : Char → Bool) : List Char → List Char → List (List Char)
  | [], acc => [acc.reverse]
  | c :: rest, acc =>
    if p c then acc.reverse :: splitByPred p rest []
    else splitByPred p rest (c :: acc)

/-- Python `s.split(sep)` for a one-character separator (keeps empty pieces). -/
def pySplitCh (sep : Char) (s : String) : List String :=
  (splitByPred (fun c => c == sep) s.data []).map String.mk

/-- Python `s.split()` with no argument: split on whitespace runs, dropping
empty pieces. -/
def pySplitWS (s : String) : List String :=
  ((splitByPred pyIsSpaceChar s.data []).filter (fun l => l ≠ [])).map String.mk

/-- ASCII lower-casing of one character (Python `str.lower()` restricted to
ASCII letters; non-ASCII Latin-1 letters never lower-case into ASCII, so this
is exact for every comparison against an ASCII literal such as `"both"`). -/
def asciiLower (c : Char) : Char :=
  if 'A' ≤ c ∧ c ≤ 'Z' then Char.ofNat (c.toNat + 32) else c

/-- Python `s.lower()` under the restriction documented at `asciiLower`. -/
def pyLower (s : String) : String :=
  String.mk (s.data.map asciiLower)

def charIsDigit (c : Char) : Bool :=
  '0' ≤ c ∧ c ≤ '9'

/-- Numeric value of a run of decimal digit characters. -/
def natOfDigits : List Char → Nat → Nat
  | [], acc => acc
  | c :: rest, acc => natOfDigits rest (acc * 10 + (c.toNat - 48))

/-- All-digit check plus value: `none` when the run is empty or contains a
non-digit. -/
def digitsNat (l : List Char) : Option Nat :=
  if l = [] then none
  else if l.all charIsDigit then some (natOfDigits l 0) else none

/-- Python `int(s)` on a string: optional surrounding whitespace, optional
sign, then decimal digits (digit-group underscores are not modelled; the
source never feeds them). -/
def pyInt (s : String) : Option Int :=
  match stripList pyIsSpaceChar s.data with
  | '+' :: rest => (digitsNat rest).map Int.ofNat
  | '-' :: rest => (digitsNat rest).map (fun n => -(n : Int))
  | rest => (digitsNat rest).map Int.ofNat

/-- Result of Python `float(s)`: an exact rational for finite literals, or an
infinity/nan marker. The decoder only stores these values. -/
inductive PyFloat
  | finite : Rat → PyFloat
  | inf : Bool → PyFloat
  | nan : PyFloat
deriving DecidableEq, Repr

/-- Mantissa/exponent assembly for a finite Python float literal, kept exact:
`±(intDigits ++ fracDigits) × 10 ^ (exp - fracDigits.length)`. -/
def pyFloatVal (neg : Bool) (ds fs : List Char) (ev : Int) : PyFloat :=
  let m : Nat := natOfDigits (ds ++ fs) 0
  let sm : Int := if neg then -(m : Int) else (m : Int)
  let shift : Int := ev - fs.length
  if 0 ≤ shift then PyFloat.finite ((sm * (10 : Int) ^ shift.toNat : Int) : Rat)
  else PyFloat.finite (mkRat sm ((10 : Nat) ^ (-shift).toNat))

/-- Exponent-part parse for Python float literals: `[eE][+-]?digits`. -/
def pyFloatExp (neg : Bool) (ds fs : List Char) : List Char → Option PyFloat
  | [] => some (pyFloatVal neg ds fs 0)
  | e :: t =>
    if e = 'e' ∨ e = 'E' then
      let (eneg, t1) :=
        match t with
        | '+' :: r => (false, r)
        | '-' :: r => (true, r)
        | r => (false, r)
      let eds := t1.takeWhile charIsDigit
      if eds = [] ∨ t1.dropWhile charIsDigit ≠ [] then none
      else
        some (pyFloatVal neg ds fs
          (if eneg then -(natOfDigits eds 0 : Int) else (natOfDigits eds 0 : Int)))
    else none

/-- Python `float(s)`: optional surrounding whitespace, optional sign, then
either `inf`/`infinity`/`nan` (case-insensitive) or a decimal literal with at
least one mantissa digit and an optional exponent. -/
def pyFloat (s : String) : Option PyFloat :=
  let cs := stripList pyIsSpaceChar s.data
  let (neg, cs1) :=
    match cs with
    | '+' :: r => (false, r)
    | '-' :: r => (true, r)
    | r => (false, r)
  let low := cs1.map asciiLower
  if low = "inf".data ∨ low = "infinity".data then some (PyFloat.inf neg)
  else if low = "nan".data then some PyFloat.nan
  else
    let ds := cs1.takeWhile charIsDigit
    let r1 := cs1.dropWhile charIsDigit
    let (fs, r2) :=
      match r1 with
      | '.' :: t => (t.takeWhile charIsDigit, t.dropWhile charIsDigit)
      | _ => (([] : List Char), r1)
    if ds = [] ∧ fs = [] then none
    else pyFloatExp neg ds fs r2

/-- Timestamp produced by `datetime.strptime(..., "%d.%m.%Y %H:%M:%S")`. -/
structure Timestamp where
  year : Nat
  month : Nat
  day : Nat
  hour : Nat
  minute : Nat
  second : Nat
deriving DecidableEq, Repr

/-- Greedy bounded digit-run parse: at least one and at most `mx` digits, as
the `strptime` directives `%d`/`%m`/`%Y`/`%H`/`%M`/`%S` consume them. -/
def takeDigitsBounded (mx : Nat) (l : List Char) : Option (Nat × List Char) :=
  let ds := l.takeWhile charIsDigit
  if ds.length = 0 ∨ mx < ds.length then none
  else some (natOfDigits ds 0, l.dropWhile charIsDigit)

def expectChar (c : Char) : List Char → Option (List Char)
  | [] => none
  | x :: r => if x = c then some r else none

def daysInMonth (y m : Nat) : Nat :=
  if m = 2 then
    if (y % 4 = 0 ∧ y % 100 ≠ 0) ∨ y % 400 = 0 then 29 else 28
  else if m = 1 ∨ m = 3 ∨ m = 5 ∨ m = 7 ∨ m = 8 ∨ m = 10 ∨ m = 12 then 31
  else 30

/-- Python `datetime.strptime(s, "%d.%m.%Y %H:%M:%S")` with the field-range
validation `datetime` performs. -/
def pyStrptimeDmyHms (s : String) : Option Timestamp := do
  let (d, r1) ← takeDigitsBounded 2 s.data
  let r2 ← expectChar '.' r1
  let (mo, r3) ← takeDigitsBounded 2 r2
  let r4 ← expectChar '.' r3
  let (y, r5) ← takeDigitsBounded 4 r4
  let r6 ← expectChar ' ' r5
  let (h, r7) ← takeDigitsBounded 2 r6
  let r8 ← expectChar ':' r7
  let (mi, r9) ← takeDigitsBounded 2 r8
  let r10 ← expectChar ':' r9
  let (sec, r11) ← takeDigitsBounded 2 r10
  if r11 = [] ∧ 1 ≤ mo ∧ mo ≤ 12 ∧ 1 ≤ d ∧ d ≤ daysInMonth y mo
      ∧ h ≤ 23 ∧ mi ≤ 59 ∧ sec ≤ 59 then
    some ⟨y, mo, d, h, mi, sec⟩
  else none

/-- Failure modes of the decoder, following the spec's taxonomy.
`indexError` models a Python `IndexError` (list index out of range) and
`unpackMismatch` models the `ValueError` of unpacking a list whose length is
not 2; the spec taxonomy has no names for those two. -/
inductive DecodeError
  | missingTerminator
  | missingField (key : String)
  | malformedField (key : String)
  | unsupportedDirectionMode (row : List String)
  | truncatedPayload
  | indexError
  | unpackMismatch
deriving DecidableEq, Repr

def exceptDecEq {ε α : Type} [DecidableEq ε] [DecidableEq α] :
    (a b : Except ε α) → Decidable (a = b)
  | Except.error x, Except.error y =>
    if h : x = y then Decidable.isTrue (by rw [h])
    else Decidable.isFalse (fun hc => h (by injection hc))
  | Except.error _, Except.ok _ => Decidable.isFalse (fun hc => Except.noConfusion hc)
  | Except.ok _, Except.error _ => Decidable.isFalse (fun hc => Except.noConfusion hc)
  | Except.ok x, Except.ok y =>
    if h : x = y then Decidable.isTrue (by rw [h])
    else Decidable.isFalse (fun hc => h (by injection hc))

instance {ε α : Type} [DecidableEq ε] [DecidableEq α] : DecidableEq (Except ε α) :=
  exceptDecEq

/-- The header map `self.header`: insertion-ordered association list of
key/value pairs (a Python `dict`). -/
abbrev HeaderMap := List (String × String)

/-- Python `dict` assignment `m[k] = v`: update in place if the key exists
(keeping its position), otherwise append. -/
def dictInsert (m : HeaderMap) (k v : String) : HeaderMap :=
  if m.any (fun p => p.1 == k) then
    m.map (fun p => if p.1 == k then (k, v) else p)
  else m ++ [(k, v)]

def hmFind : HeaderMap → String → Option String
  | [], _ => none
  | (k, v) :: t, key => if k == key then some v else hmFind t key

/-- Python `self.header[key]`: a missing key raises `KeyError`, modelled as
`missingField key` per the spec taxonomy. -/
def hmGet (m : HeaderMap) (key : String) : Except DecodeError String :=
  match hmFind m key with
  | some v => Except.ok v
  | none => Except.error (DecodeError.missingField key)

/-- The caption test `re.compile(r"^:.*:").match(line)` of `_parse_header`:
a match at position 0 requires a leading `:` and a second `:` somewhere
after it (lines are newline-free here, so `.` matches every character). -/
def isCaption (line : String) : Bool :=
  match line.data with
  | ':' :: rest => rest.contains ':'
  | _ => false

/-- The source's `_string_prettify`: `s.replace('>', '_').replace(':', '').strip()`. -/
def stringPrettify (s : String) : String :=
  pyStrip (String.mk ((s.data.map (fun c => if c == '>' then '_' else c)).filter
    (fun c => ¬ (c == ':'))))

/-- Python `line[1:-1]`: drop the first and last character. -/
def dropEnds (s : String) : String :=
  String.mk (s.data.drop 1).dropLast

/-- The loop body of `_parse_header`, carrying `key`, `contents` and the map
built so far. The terminator line flushes the pending pair and breaks; a
caption line flushes the pending pair and starts a new key; any other line is
appended to `contents`. Input exhaustion (no terminator) performs no final
flush: the loop just ends. -/
def headerLoop : List String → String → String → HeaderMap → HeaderMap
  | [], _, _, acc => acc
  | l :: rest, key, contents, acc =>
    let line := pyStrip l
    if line = ":SCANIT_END:" then
      if key = "" then acc else dictInsert acc key (pyStrip contents)
    else if isCaption line then
      headerLoop rest (stringPrettify (dropEnds line)) ""
        (if key = "" then acc else dictInsert acc key (pyStrip contents))
    else
      headerLoop rest key
        (if contents = "" then line else contents ++ "\n" ++ line) acc

/-- The header map produced by `_parse_header` from the text-mode lines. -/
def parseHeaderMap (lines : List String) : HeaderMap :=
  headerLoop lines "" "" []

/-- The header phase as a fallible pipeline step. `_parse_header` contains no
`raise` and no failure path, so its embedding always returns `Except.ok`
(both on the terminator `break` and on plain input exhaustion). -/
def parseHeader (lines : List String) : Except DecodeError HeaderMap :=
  Except.ok (parseHeaderMap lines)

/-- Python list-comprehension parse `[p(x) for x in toks]` where a failing
element raises `ValueError`, modelled as `malformedField` for the named key. -/
def pyMapParse (err : DecodeError) (p : String → Option α) :
    List String → Except DecodeError (List α)
  | [] => Except.ok []
  | t :: ts =>
    match p t with
    | none => Except.error err
    | some a => (pyMapParse err p ts).map (fun l => a :: l)

/-- Line 88: `[int(x) for x in self.header['SCAN_PIXELS'].split()]`. -/
def parseScanPixels (v : String) : Except DecodeError (List Int) :=
  pyMapParse (DecodeError.malformedField "SCAN_PIXELS") pyInt (pySplitWS v)

/-- Line 89: `[float(x) for x in self.header['SCAN_RANGE'].split()]`. -/
def parseScanRange (v : String) : Except DecodeError (List PyFloat) :=
  pyMapParse (DecodeError.malformedField "SCAN_RANGE") pyFloat (pySplitWS v)

/-- Line 90: `[float(x) for x in self.header['SCAN_OFFSET'].split()]`. -/
def parseScanOffset (v : String) : Except DecodeError (List PyFloat) :=
  pyMapParse (DecodeError.malformedField "SCAN_OFFSET") pyFloat (pySplitWS v)

/-- Line 93: `"up" if self.header['SCAN_DIR'] == "up" else "down"`. -/
def resolveScanDir (v : String) : String :=
  if v = "up" then "up" else "down"

/-- Lines 96-100: split `Z-CONTROLLER` on tabs, read element 8 as the
feedback flag (`== "1"`), space-split element 9 into setpoint value and
optional unit. Out-of-range element access raises `IndexError`;
`float(z_setpoint[0])` on a non-numeric token raises `ValueError`. -/
def parseZController (v : String) : Except DecodeError (Bool × PyFloat × String) :=
  let zdata := pySplitCh '\t' v
  match zdata[8]?, zdata[9]? with
  | some f8, some f9 =>
    let sp := pySplitWS f9
    match sp[0]? with
    | none => Except.error DecodeError.indexError
    | some v0 =>
      match pyFloat v0 with
      | none => Except.error (DecodeError.malformedField "Z-CONTROLLER")
      | some val => Except.ok (f8 == "1", val, (sp[1]?).getD "")
  | _, _ => Except.error DecodeError.indexError

/-- One pass of `_get_channel_names_units` over the `DATA_INFO` lines with
their indices: a row after the first with more than one whitespace token
contributes `entries[1]` (underscores to spaces) and `entries[2]`, and must
have `entries[3].lower() == "both"`; `entries[2]`/`entries[3]` out of range
raise `IndexError`, a non-`both` mode raises `NotImplementedError`
(modelled `unsupportedDirectionMode`). Rows with at most one token, and the
first row, are skipped. A raise aborts the whole call, discarding any names
and units appended before it. -/
def chanRows : Nat → List String → Except DecodeError (List String × List String)
  | _, [] => Except.ok ([], [])
  | i, line :: rest =>
    let entries := pySplitWS line
    if 1 < entries.length ∧ i ≠ 0 then
      match entries with
      | _ :: name :: unit :: mode :: _ =>
        if pyLower mode ≠ "both" then
          Except.error (DecodeError.unsupportedDirectionMode entries)
        else
          (chanRows (i + 1) rest).map (fun p =>
            (String.mk (name.data.map (fun c => if c == '_' then ' ' else c)) :: p.1,
             unit :: p.2))
      | _ => Except.error DecodeError.indexError
    else chanRows (i + 1) rest

/-- `_get_channel_names_units`: split `DATA_INFO` on newlines and walk the
rows. The table pretty-printing in the source only formats `table_data` for
display and never fails or contributes to the returned value, so it is not
modelled. -/
def getChannelNamesUnits (dataInfo : String) :
    Except DecodeError (List String × List String) :=
  chanRows 0 (pySplitCh '\n' dataInfo)

/-- Selected data rows of a `DATA_INFO` table: the whitespace-token lists of
the rows after the first having more than one token, in order (the rows from
which `chanRows` extracts a descriptor or fails). -/
def selRows : Nat → List String → List (List String)
  | _, [] => []
  | i, line :: rest =>
    let entries := pySplitWS line
    if 1 < entries.length ∧ i ≠ 0 then entries :: selRows (i + 1) rest
    else selRows (i + 1) rest

/-- The typed scan parameters `_parse_metadata` stores on the `SpmImage`. -/
structure Metadata where
  scanfile : String
  scanpixels : List Int
  scansize : List PyFloat
  center : List PyFloat
  angle : PyFloat
  scanDirection : String
  bias : PyFloat
  zFeedback : Bool
  zSetpoint : PyFloat
  zSetpointUnit : String
  z : Option PyFloat
  startTime : Timestamp
  acqTime : PyFloat
  channelNames : List String
  channelUnits : List String
  channelIndicesFwd : List Nat
  channelIndicesBwd : List Nat
deriving DecidableEq, Repr

/-- Single-token float field: `float(self.header[key])`. -/
def floatField (h : HeaderMap) (key : String) : Except DecodeError PyFloat := do
  let v ← hmGet h key
  match pyFloat v with
  | some f => Except.ok f
  | none => Except.error (DecodeError.malformedField key)

/-- `_parse_metadata`, with header lookups and parses in the source's
evaluation order (lines 87-112). The key-table printing at line 85 has no
effect on the result and is not modelled. `list(range(0, n*2, 2))` and
`list(range(1, n*2, 2))` are written as maps over `List.range n`. -/
def parseMetadata (h : HeaderMap) : Except DecodeError Metadata := do
  let scanfile ← hmGet h "SCAN_FILE"
  let scanpixels ← parseScanPixels (← hmGet h "SCAN_PIXELS")
  let scansize ← parseScanRange (← hmGet h "SCAN_RANGE")
  let center ← parseScanOffset (← hmGet h "SCAN_OFFSET")
  let angle ← floatField h "SCAN_ANGLE"
  let dirv ← hmGet h "SCAN_DIR"
  let bias ← floatField h "BIAS"
  let zres ← parseZController (← hmGet h "Z-CONTROLLER")
  let z ← match hmFind h "Z-CONTROLLER_Z (m)" with
    | some zraw =>
      match pyFloat zraw with
      | some f => Except.ok (some f)
      | none => Except.error (DecodeError.malformedField "Z-CONTROLLER_Z (m)")
    | none => Except.ok none
  let rd ← hmGet h "REC_DATE"
  let rt ← hmGet h "REC_TIME"
  let start ← match pyStrptimeDmyHms (rd ++ " " ++ rt) with
    | some ts => Except.ok ts
    | none => Except.error (DecodeError.malformedField "REC_DATE REC_TIME")
  let acq ← floatField h "ACQ_TIME"
  let chans ← getChannelNamesUnits (← hmGet h "DATA_INFO")
  Except.ok
    { scanfile := scanfile
      scanpixels := scanpixels
      scansize := scansize
      center := center
      angle := angle
      scanDirection := resolveScanDir dirv
      bias := bias
      zFeedback := zres.1
      zSetpoint := zres.2.1
      zSetpointUnit := zres.2.2
      z := z
      startTime := start
      acqTime := acq
      channelNames := chans.1
      channelUnits := chans.2
      channelIndicesFwd := (List.range chans.1.length).map (fun i => 2 * i)
      channelIndicesBwd := (List.range chans.1.length).map (fun i => 2 * i + 1) }

/-- A binary float32 value kept as its raw 4-byte big-endian group
(byte values as Latin-1 character codes). -/
abbrev Word := List Char

/-- A 2-D grid of float32 values, row-major. -/
abbrev Grid := List (List Word)

/-- Item grouping of `np.fromfile(f, dtype='>f4', ...)`: consecutive 4-byte
groups; a trailing partial group is not an item. -/
def chunk4 : List Char → List Word
  | a :: b :: c :: d :: rest => [a, b, c, d] :: chunk4 rest
  | _ => []

/-- One direction-plane of the reshaped tensor `raw.reshape((c, 2, y, x))`:
NumPy row-major (C-order) indexing puts element `(i, d, r, col)` at flat
index `((i*2 + d)*y + r)*x + col`, so plane `2*i + d` of channel `i` is the
`y × x` grid below. -/
def mkGrid (raw : List Word) (yp xp plane : Nat) : Grid :=
  (List.range yp).map (fun r =>
    (List.range xp).map (fun c => raw.getD ((plane * yp + r) * xp + c) []))

/-- `_read_binary_data` (lines 114-130) given pixel counts and channel names:
skip the 4-byte signature, read at most `x*y*channels*2` float items
(`np.fromfile` with `count` returns only the items available), then reshape.
`reshape` raises `ValueError` when the item count differs from
`c*2*y*x` — the `TruncatedPayload` failure, since fewer items than requested
is the only way the count can differ. On success each channel `i` is bound to
`(forward, backward) = (tensor[i,0,:,:], tensor[i,1,:,:])`. -/
def readBinaryCore (xp yp : Nat) (names : List String) (stream : List Char) :
    Except DecodeError (List (String × Grid × Grid)) :=
  let afterSig := stream.drop 4
  let total := xp * yp * names.length * 2
  let raw := (chunk4 afterSig).take total
  if raw.length = total then
    Except.ok (names.enum.map (fun p =>
      (p.2, mkGrid raw yp xp (2 * p.1), mkGrid raw yp xp (2 * p.1 + 1))))
  else Except.error DecodeError.truncatedPayload

instance chanEntryDecEq : DecidableEq (String × Grid × Grid) := inferInstance

/-- The unpacking `x_pixels, y_pixels = self.scanpixels` (line 115): a
`ValueError` unless the list has exactly two elements. Pixel counts reach
this point as Python ints; the source never makes sense of negative counts,
and `Int.toNat` is their value on the non-negative inputs modelled here. -/
def readBinaryDataMd (md : Metadata) (stream : List Char) :
    Except DecodeError (List (String × Grid × Grid)) :=
  match md.scanpixels with
  | [xp, yp] => readBinaryCore xp.toNat yp.toNat md.channelNames stream
  | _ => Except.error DecodeError.unpackMismatch

/-- Text-mode line splitting with universal newlines: `\r\n`, `\r` and `\n`
all end a line, and a final piece after the last newline is yielded only when
non-empty (Python text-file iteration). -/
def splitTextAux : List Char → List Char → List String
  | [], acc => if acc = [] then [] else [String.mk acc.reverse]
  | '\r' :: '\n' :: rest, acc => String.mk acc.reverse :: splitTextAux rest []
  | '\r' :: rest, acc => String.mk acc.reverse :: splitTextAux rest []
  | '\n' :: rest, acc => String.mk acc.reverse :: splitTextAux rest []
  | c :: rest, acc => splitTextAux rest (c :: acc)

/-- The lines the text-mode header pass iterates over. -/
def splitTextLines (file : List Char) : List String :=
  splitTextAux file []

/-- Binary-mode `f.readline()`: the prefix up to and including the first
`\n` (or the whole remainder when none), plus the rest of the stream. At end
of file it returns the empty line and leaves the stream empty. -/
def readByteLine : List Char → List Char × List Char
  | [] => ([], [])
  | c :: rest =>
    if c = '\n' then ([c], rest)
    else
      let p := readByteLine rest
      (c :: p.1, p.2)

/-- Accumulator pass underlying `splitByteLines`: split after every `\n`,
keeping the newline on its line, and yield a final newline-less piece only
when non-empty. -/
def splitByteAux : List Char → List Char → List (List Char)
  | [], acc => if acc = [] then [] else [acc.reverse]
  | c :: rest, acc =>
    if c = '\n' then (acc.reverse ++ ['\n']) :: splitByteAux rest []
    else splitByteAux rest (c :: acc)

/-- The byte-mode lines of the file, as `f.readline()` yields them (each
including its `\n` when present). -/
def splitByteLines (l : List Char) : List (List Char) :=
  splitByteAux l []

/-- The binary pass's terminator test (line 192):
`line.strip() == b':SCANIT_END:'`, with `bytes.strip` removing ASCII
whitespace only. -/
def binPassIsTerm (line : List Char) : Bool :=
  stripList bytesIsSpaceChar line == ":SCANIT_END:".data

/-- The text pass's terminator test (lines 37-38) applied to the Latin-1
decoding of the same raw line: `line.strip() == ":SCANIT_END:"` with
`str.strip` removing Unicode whitespace. -/
def textPassIsTerm (line : List Char) : Bool :=
  pyStrip (String.mk line) == ":SCANIT_END:"

/-- The boundary re-scan of `load` (lines 190-193), with an explicit fuel
bound on the number of `readline` calls: return the stream remainder after
the terminator line, or `none` when the loop is still running after `fuel`
iterations. At end of file `readline` keeps returning the empty line, which
never matches, so the loop body itself never exits on a terminator-free
stream. -/
def scanTerm : Nat → List Char → Option (List Char)
  | 0, _ => none
  | fuel + 1, bs =>
    let p := readByteLine bs
    if binPassIsTerm p.1 then some p.2
    else scanTerm fuel p.2

/-- `load(header_only=False)` with the binary boundary scan bounded by
`fuel`: `none` means the scan loop is still running after `fuel` readline
calls; `some r` means the load finished with result `r`. The text pass, the
metadata phase and (after a successful scan) the binary phase are composed
exactly as in lines 174-196. -/
def loadFuel (fuel : Nat) (file : List Char) :
    Option (Except DecodeError (Metadata × List (String × Grid × Grid))) :=
  match parseMetadata (parseHeaderMap (splitTextLines file)) with
  | Except.error e => some (Except.error e)
  | Except.ok md =>
    match scanTerm fuel file with
    | none => none
    | some rest => some ((readBinaryDataMd md rest).map (fun d => (md, d)))

theorem chunk4_append (w rest' : List Char) (hw : w.length = 4) :
    chunk4 (w ++ rest') = w :: chunk4 rest' := by
  rcases w with _ | ⟨a, _ | ⟨b, _ | ⟨c, _ | ⟨d, _ | ⟨e, t⟩⟩⟩⟩⟩ <;>
      simp only [List.length] at hw <;> try omega
  rfl

theorem chunk4_join (ws : List Word) (hw : ∀ w ∈ ws, w.length = 4) :
    chunk4 ws.flatten = ws := by
  induction ws with
  | nil => rfl
  | cons w t ih =>
    rw [List.flatten_cons, chunk4_append w _ (hw w (by simp)),
      ih (fun x hx => hw x (by simp [hx]))]

/-- C2: the resolved scan direction is `"up"` exactly when the raw `SCAN_DIR`
value is the literal string `"up"`; every other value (case variants, `"down"`,
the empty string, anything) resolves to `"down"`. -/
theorem c2_scan_dir_fold (v : String) :
    (resolveScanDir v = "up" ↔ v = "up") ∧ (v ≠ "up" → resolveScanDir v = "down") := by
  by_cases h : v = "up" <;> simp [resolveScanDir, h]

theorem c2_witness : resolveScanDir "UP" = "down" ∧ resolveScanDir "" = "down" :=
  ⟨(c2_scan_dir_fold "UP").2 (by decide), (c2_scan_dir_fold "").2 (by decide)⟩

/-- C4: with a 4-byte signature followed by exactly
`x_pixels * y_pixels * channel_count * 2` four-byte float items, the binary
decoder succeeds, discarding exactly the signature and binding, for each
channel index `i` in order, `forward` to plane `2*i` and `backward` to plane
`2*i + 1` of the row-major `(channels, 2, y, x)` tensor over the item list. -/
theorem c4_binary_reshape (sig : List Char) (ws : List Word) (xp yp : Nat)
    (names : List String) (h4 : sig.length = 4) (hw : ∀ w ∈ ws, w.length = 4)
    (hlen : ws.length = xp * yp * names.length * 2) :
    readBinaryCore xp yp names (sig ++ ws.flatten) =
      Except.ok (names.enum.map (fun p =>
        (p.2, mkGrid ws yp xp (2 * p.1), mkGrid ws yp xp (2 * p.1 + 1)))) := by
  simp only [readBinaryCore]
  rw [show (sig ++ ws.flatten).drop 4 = ws.flatten by rw [← h4, List.drop_left]]
  rw [chunk4_join ws hw]
  rw [show ws.take (xp * yp * names.length * 2) = ws by rw [← hlen, List.take_length]]
  simp [hlen]

def c4word (k : Nat) : Word := ['w', Char.ofNat (65 + k), 'x', 'y']

theorem c4_witness :
    readBinaryCore 2 3 ["ch"] (['s', 'i', 'g', '!'] ++ ((List.range 12).map c4word).flatten) =
      Except.ok [("ch",
        [[c4word 0, c4word 1], [c4word 2, c4word 3], [c4word 4, c4word 5]],
        [[c4word 6, c4word 7], [c4word 8, c4word 9], [c4word 10, c4word 11]])] :=
  (c4_binary_reshape ['s', 'i', 'g', '!'] ((List.range 12).map c4word) 2 3 ["ch"]
    (by decide) (by decide) (by decide)).trans (by decide)

/-- C5: when the stream provides fewer complete float items after the 4-byte
signature than the header-derived shape requires, the binary decoder fails
with `truncatedPayload` instead of producing grids. -/
theorem c5_truncated_payload (xp yp : Nat) (names : List String) (stream : List Char)
    (h : (chunk4 (stream.drop 4)).length < xp * yp * names.length * 2) :
    readBinaryCore xp yp names stream = Except.error DecodeError.truncatedPayload := by
  have hne : ¬(((chunk4 (stream.drop 4)).take (xp * yp * names.length * 2)).length
      = xp * yp * names.length * 2) := by
    rw [List.length_take]; omega
  simp only [readBinaryCore, if_neg hne]

theorem c5_witness :
    readBinaryCore 2 3 ["c"] (List.replicate 44 'z') =
      Except.error DecodeError.truncatedPayload :=
  c5_truncated_payload 2 3 ["c"] (List.replicate 44 'z') (by decide)

theorem headerLoop_key_empty (ls : List String) (c₁ c₂ : String) (acc : HeaderMap) :
    headerLoop ls "" c₁ acc = headerLoop ls "" c₂ acc := by
  induction ls generalizing c₁ c₂ with
  | nil => rfl
  | cons l rest ih =>
    simp only [headerLoop]
    by_cases h1 : pyStrip l = ":SCANIT_END:"
    · simp [h1]
    · by_cases h2 : isCaption (pyStrip l) = true
      · simp [h1, h2]
      · simp only [if_neg h1, if_neg h2]
        exact ih _ _

theorem headerLoop_append_term (ls : List String) (k c : String) (acc : HeaderMap)
    (hnt : ∀ l ∈ ls, pyStrip l ≠ ":SCANIT_END:") :
    ∃ k' c', headerLoop (ls ++ [":SCANIT_END:"]) k c acc =
      if k' = "" then headerLoop ls k c acc
      else dictInsert (headerLoop ls k c acc) k' c' := by
  induction ls generalizing k c acc with
  | nil =>
    refine ⟨k, pyStrip c, ?_⟩
    have hterm : pyStrip ":SCANIT_END:" = ":SCANIT_END:" := by decide
    simp [headerLoop, hterm]
  | cons l rest ih =>
    have h1 := hnt l (by simp)
    simp only [List.cons_append, headerLoop, if_neg h1]
    by_cases h2 : isCaption (pyStrip l) = true
    · simp only [if_pos h2]
      exact ih _ _ _ (fun x hx => hnt x (by simp [hx]))
    · simp only [if_neg h2]
      exact ih _ _ _ (fun x hx => hnt x (by simp [hx]))

theorem c1_counterexample :
    (∀ l ∈ [":A:", "x"], pyStrip l ≠ ":SCANIT_END:") ∧
      parseHeader [":A:", "x"] = Except.ok [] ∧
      parseHeader [":A:", "x"] ≠ Except.error DecodeError.missingTerminator := by
  refine ⟨by decide, by decide, by decide⟩

/-- C1 (amended): on input whose lines never strip to the terminator,
`_parse_header` completes normally rather than failing — there is no
`MissingTerminator` (or any other) failure path. The only difference from a
terminated parse of the same lines is that the final pending pair is never
flushed: appending a terminator line yields either the same map or the same
map with one extra flushed pair. -/
theorem c1_no_terminator_completes (lines : List String)
    (h : ∀ l ∈ lines, pyStrip l ≠ ":SCANIT_END:") :
    ∃ m, parseHeader lines = Except.ok m ∧
      (parseHeader (lines ++ [":SCANIT_END:"]) = Except.ok m ∨
        ∃ k c, ¬ k = "" ∧
          parseHeader (lines ++ [":SCANIT_END:"]) = Except.ok (dictInsert m k c)) := by
  obtain ⟨k', c', hh⟩ := headerLoop_append_term lines "" "" [] h
  refine ⟨parseHeaderMap lines, rfl, ?_⟩
  by_cases hk : k' = ""
  · left
    simp only [parseHeader, parseHeaderMap] at hh ⊢
    rw [hh, if_pos hk]
  · right
    refine ⟨k', c', hk, ?_⟩
    simp only [parseHeader, parseHeaderMap] at hh ⊢
    rw [hh, if_neg hk]

theorem c1_witness :
    ∃ m, parseHeader [":A:", "x"] = Except.ok m ∧
      (parseHeader ([":A:", "x"] ++ [":SCANIT_END:"]) = Except.ok m ∨
        ∃ k c, ¬ k = "" ∧
          parseHeader ([":A:", "x"] ++ [":SCANIT_END:"]) = Except.ok (dictInsert m k c)) :=
  c1_no_terminator_completes [":A:", "x"] (by decide)

theorem headerLoop_preamble (pre lines : List String)
    (h : ∀ l ∈ pre, pyStrip l ≠ ":SCANIT_END:" ∧ isCaption (pyStrip l) = false) :
    headerLoop (pre ++ lines) "" "" [] = headerLoop lines "" "" [] := by
  induction pre with
  | nil => rfl
  | cons l pre ih =>
    obtain ⟨h1, h2⟩ := h l (by simp)
    simp only [List.cons_append, headerLoop, if_neg h1, h2, Bool.false_eq_true,
      if_false, if_true, List.append_eq]
    rw [headerLoop_key_empty (pre ++ lines) _ "" []]
    exact ih (fun x hx => h x (by simp [hx]))

/-- C10: content lines before the first caption line are silently discarded:
a preamble of non-caption, non-terminator lines leaves the resulting header
map exactly what it would have been without the preamble, so those lines are
stored under no key (a pending block is only flushed when a non-empty key has
been seen). -/
theorem c10_preamble_discarded (pre lines : List String)
    (h : ∀ l ∈ pre, pyStrip l ≠ ":SCANIT_END:" ∧ isCaption (pyStrip l) = false) :
    parseHeader (pre ++ lines) = parseHeader lines :=
  congrArg Except.ok (headerLoop_preamble pre lines h)

theorem c10_witness :
    parseHeader (["junk", "more junk"] ++ [":A:", "b", ":SCANIT_END:"]) =
      parseHeader [":A:", "b", ":SCANIT_END:"] :=
  c10_preamble_discarded ["junk", "more junk"] [":A:", "b", ":SCANIT_END:"] (by decide)

theorem pyMapParse_ok {α : Type} (err : DecodeError) (p : String → Option α)
    (ts : List String) (h : ∀ t ∈ ts, (p t).isSome) :
    ∃ xs, pyMapParse err p ts = Except.ok xs ∧
      List.Forall₂ (fun t x => p t = some x) ts xs := by
  induction ts with
  | nil => exact ⟨[], rfl, List.Forall₂.nil⟩
  | cons t ts ih =>
    obtain ⟨a, ha⟩ := Option.isSome_iff_exists.mp (h t (by simp))
    obtain ⟨xs, hxs, hf⟩ := ih (fun x hx => h x (by simp [hx]))
    exact ⟨a :: xs, by simp [pyMapParse, ha, hxs, Except.map],
      List.Forall₂.cons ha hf⟩

theorem pyMapParse_err {α : Type} (err : DecodeError) (p : String → Option α)
    (ts : List String) (h : ∃ t ∈ ts, p t = none) :
    pyMapParse err p ts = Except.error err := by
  induction ts with
  | nil => simp at h
  | cons t ts ih =>
    by_cases ht : p t = none
    · simp [pyMapParse, ht]
    · obtain ⟨a, ha⟩ := Option.ne_none_iff_exists'.mp ht
      have hrest : ∃ x ∈ ts, p x = none := by
        obtain ⟨x, hx, hpx⟩ := h
        rcases List.mem_cons.mp hx with rfl | hx'
        · exact absurd hpx ht
        · exact ⟨x, hx', hpx⟩
      simp [pyMapParse, ha, ih hrest, Except.map]

/-- C6 (amended): each of `SCAN_PIXELS` / `SCAN_RANGE` / `SCAN_OFFSET` is
whitespace-split and every token parsed as integer / float / float
respectively; a token that fails to parse numerically fails the field with
`MalformedField`. The token count is not validated: any number of tokens
(0, 1, 3, ...) is accepted by the metadata phase, which returns the list of
all parsed values. -/
theorem c6_numeric_fields (v : String) :
    ((∀ t ∈ pySplitWS v, (pyInt t).isSome) →
      ∃ xs, parseScanPixels v = Except.ok xs ∧
        List.Forall₂ (fun t x => pyInt t = some x) (pySplitWS v) xs) ∧
    ((∃ t ∈ pySplitWS v, pyInt t = none) →
      parseScanPixels v = Except.error (DecodeError.malformedField "SCAN_PIXELS")) ∧
    ((∀ t ∈ pySplitWS v, (pyFloat t).isSome) →
      ∃ xs, parseScanRange v = Except.ok xs ∧
        List.Forall₂ (fun t x => pyFloat t = some x) (pySplitWS v) xs) ∧
    ((∃ t ∈ pySplitWS v, pyFloat t = none) →
      parseScanRange v = Except.error (DecodeError.malformedField "SCAN_RANGE")) ∧
    ((∀ t ∈ pySplitWS v, (pyFloat t).isSome) →
      ∃ xs, parseScanOffset v = Except.ok xs ∧
        List.Forall₂ (fun t x => pyFloat t = some x) (pySplitWS v) xs) ∧
    ((∃ t ∈ pySplitWS v, pyFloat t = none) →
      parseScanOffset v = Except.error (DecodeError.malformedField "SCAN_OFFSET")) :=
  ⟨fun h => pyMapParse_ok _ _ _ h, fun h => pyMapParse_err _ _ _ h,
   fun h => pyMapParse_ok _ _ _ h, fun h => pyMapParse_err _ _ _ h,
   fun h => pyMapParse_ok _ _ _ h, fun h => pyMapParse_err _ _ _ h⟩

theorem c6_counterexample :
    parseScanPixels "1 2 3" = Except.ok [1, 2, 3] ∧
      parseScanRange "1 2 3" =
        Except.ok [PyFloat.finite 1, PyFloat.finite 2, PyFloat.finite 3] ∧
      parseScanOffset "" = Except.ok [] := by
  refine ⟨by decide, by decide, by decide⟩

theorem c6_witness :
    (∃ xs, parseScanPixels "7 8" = Except.ok xs ∧
      List.Forall₂ (fun t x => pyInt t = some x) (pySplitWS "7 8") xs) ∧
    parseScanRange "x y" = Except.error (DecodeError.malformedField "SCAN_RANGE") :=
  ⟨(c6_numeric_fields "7 8").1 (by decide),
   (c6_numeric_fields "x y").2.2.2.1 (by decide)⟩

theorem pyFloat_empty : pyFloat "" = none := by decide

/-- C7: the `Z-CONTROLLER` value is split on tabs; with at least 10 elements
and a parsable setpoint token, the result holds the feedback flag
`element8 == "1"` (true exactly when element 8 is `"1"`, by `beq_iff_eq`),
the parsed setpoint, and the unit — the second space-token of element 9, or
`""` when absent. With fewer than 10 tab-separated elements the resolution
fails (Python `IndexError`). -/
theorem c7_z_controller (v : String) :
    (∀ f8 f9 t0 val,
      (pySplitCh '\t' v)[8]? = some f8 →
      (pySplitCh '\t' v)[9]? = some f9 →
      (pySplitWS f9)[0]? = some t0 →
      pyFloat t0 = some val →
      parseZController v = Except.ok (f8 == "1", val, ((pySplitWS f9)[1]?).getD "")) ∧
    ((pySplitCh '\t' v).length < 10 →
      parseZController v = Except.error DecodeError.indexError) := by
  constructor
  · intro f8 f9 t0 val h8 h9 ht0 hval
    simp only [parseZController, h8, h9, ht0, hval]
  · intro hlen
    have h9 : (pySplitCh '\t' v)[9]? = none := by
      rw [List.getElem?_eq_none]
      omega
    rcases h8 : (pySplitCh '\t' v)[8]? with _ | f8 <;>
      simp only [parseZController, h8, h9]

theorem c7_witness :
    parseZController "a\tb\tc\td\te\tf\tg\th\t1\t3 m" =
        Except.ok (true, PyFloat.finite 3, "m") ∧
      parseZController "a\tb" = Except.error DecodeError.indexError :=
  ⟨((c7_z_controller "a\tb\tc\td\te\tf\tg\th\t1\t3 m").1 "1" "3 m" "3"
      (PyFloat.finite 3) (by decide) (by decide) (by decide) (by decide)).trans
    (by decide),
   (c7_z_controller "a\tb").2 (by decide)⟩

theorem exists_cons4 {α : Type} (l : List α) (h : 4 ≤ l.length) :
    ∃ a b c d t, l = a :: b :: c :: d :: t := by
  rcases l with _ | ⟨a, _ | ⟨b, _ | ⟨c, _ | ⟨d, t⟩⟩⟩⟩ <;>
      simp only [List.length] at h <;> try omega
  exact ⟨a, b, c, d, t, rfl⟩

/-- Channel name extracted from a selected `DATA_INFO` row: token 1 with
underscores replaced by spaces. -/
def rowName (r : List String) : String :=
  String.mk ((r.getD 1 "").data.map (fun c => if c == '_' then ' ' else c))

/-- Channel unit extracted from a selected `DATA_INFO` row: token 2. -/
def rowUnit (r : List String) : String :=
  r.getD 2 ""

/-- Direction-recording mode of a selected `DATA_INFO` row: token 3. -/
def rowMode (r : List String) : String :=
  r.getD 3 ""

theorem chanRows_all_both (ls : List String) (i : Nat)
    (h4 : ∀ r ∈ selRows i ls, 4 ≤ r.length)
    (hboth : ∀ r ∈ selRows i ls, pyLower (rowMode r) = "both") :
    chanRows i ls =
      Except.ok ((selRows i ls).map rowName, (selRows i ls).map rowUnit) := by
  induction ls generalizing i with
  | nil => rfl
  | cons line rest ih =>
    by_cases hsel : 1 < (pySplitWS line).length ∧ i ≠ 0
    · have hmem : pySplitWS line ∈ selRows i (line :: rest) := by
        simp [selRows, hsel]
      obtain ⟨a, b, c, d, t, hE⟩ := exists_cons4 _ (h4 _ hmem)
      have hself : selRows i (line :: rest) =
          pySplitWS line :: selRows (i + 1) rest := by
        simp [selRows, hsel]
      have hmode : pyLower d = "both" := by
        have := hboth _ hmem
        rwa [hE, rowMode, List.getD] at this
      have hrest := ih (i + 1)
        (fun r hr => h4 r (by rw [hself]; exact List.mem_cons_of_mem _ hr))
        (fun r hr => hboth r (by rw [hself]; exact List.mem_cons_of_mem _ hr))
      simp only [chanRows, hE, if_pos (hE ▸ hsel), hmode, hrest, hself]
      simp [rowName, rowUnit, List.getD, Except.map]
    · have hself : selRows i (line :: rest) = selRows (i + 1) rest := by
        simp only [selRows]
        rw [if_neg hsel]
      rw [hself] at h4 hboth ⊢
      simp only [chanRows, if_neg hsel]
      exact ih (i + 1) h4 hboth

theorem chanRows_bad_mode (ls : List String) (i : Nat)
    (h4 : ∀ r ∈ selRows i ls, 4 ≤ r.length)
    (hex : ∃ r ∈ selRows i ls, pyLower (rowMode r) ≠ "both") :
    ∃ bad ∈ selRows i ls, pyLower (rowMode bad) ≠ "both" ∧
      chanRows i ls = Except.error (DecodeError.unsupportedDirectionMode bad) := by
  induction ls generalizing i with
  | nil => simp [selRows] at hex
  | cons line rest ih =>
    by_cases hsel : 1 < (pySplitWS line).length ∧ i ≠ 0
    · have hmem : pySplitWS line ∈ selRows i (line :: rest) := by
        simp [selRows, hsel]
      obtain ⟨a, b, c, d, t, hE⟩ := exists_cons4 _ (h4 _ hmem)
      have hself : selRows i (line :: rest) =
          pySplitWS line :: selRows (i + 1) rest := by
        simp [selRows, hsel]
      by_cases hm : pyLower (rowMode (pySplitWS line)) = "both"
      · have hmode : pyLower d = "both" := by
          rwa [hE, rowMode, List.getD] at hm
        have hex' : ∃ r ∈ selRows (i + 1) rest, pyLower (rowMode r) ≠ "both" := by
          obtain ⟨r, hr, hrm⟩ := hex
          rw [hself] at hr
          rcases List.mem_cons.mp hr with rfl | hr'
          · exact absurd hm hrm
          · exact ⟨r, hr', hrm⟩
        obtain ⟨bad, hbmem, hbm, hbe⟩ := ih (i + 1)
          (fun r hr => h4 r (by rw [hself]; exact List.mem_cons_of_mem _ hr)) hex'
        refine ⟨bad, by rw [hself]; exact List.mem_cons_of_mem _ hbmem, hbm, ?_⟩
        simp only [chanRows, hE, if_pos (hE ▸ hsel), hmode, hbe]
        simp [Except.map]
      · have hmode : ¬ pyLower d = "both" := by
          rwa [hE, rowMode, List.getD] at hm
        refine ⟨pySplitWS line, hmem, hm, ?_⟩
        simp only [chanRows, hE, if_pos (hE ▸ hsel), if_pos hmode]
    · have hself : selRows i (line :: rest) = selRows (i + 1) rest := by
        simp only [selRows]
        rw [if_neg hsel]
      rw [hself] at h4 hex ⊢
      simp only [chanRows, if_neg hsel]
      exact ih (i + 1) h4 hex

theorem c3_counterexample :
    1 < (pySplitWS "1 a").length ∧
      getChannelNamesUnits "Channel Name Unit Direction\n1 a" =
        Except.error DecodeError.indexError := by
  refine ⟨by decide, by decide⟩

/-- C3 (amended): over the `DATA_INFO` lines, the rows after the first with
more than one whitespace token are the selected data rows; when every
selected row has at least 4 tokens, the parser returns one descriptor per
selected row in order — name = token 1 with underscores replaced by spaces,
unit = token 2 — provided every row's token 3 is case-insensitively
`"both"`, and fails with `UnsupportedDirectionMode` on some offending row
otherwise. Rows with zero or one token (and the first row) are skipped.
(A selected row with only 2 or 3 tokens makes the parser fail with an
index-out-of-range error instead, per the counterexample.) -/
theorem c3_channel_table (info : String)
    (h4 : ∀ r ∈ selRows 0 (pySplitCh '\n' info), 4 ≤ r.length) :
    ((∀ r ∈ selRows 0 (pySplitCh '\n' info), pyLower (rowMode r) = "both") →
      getChannelNamesUnits info =
        Except.ok ((selRows 0 (pySplitCh '\n' info)).map rowName,
          (selRows 0 (pySplitCh '\n' info)).map rowUnit)) ∧
    ((∃ r ∈ selRows 0 (pySplitCh '\n' info), pyLower (rowMode r) ≠ "both") →
      ∃ bad ∈ selRows 0 (pySplitCh '\n' info), pyLower (rowMode bad) ≠ "both" ∧
        getChannelNamesUnits info =
          Except.error (DecodeError.unsupportedDirectionMode bad)) :=
  ⟨fun hboth => chanRows_all_both _ 0 h4 hboth,
   fun hex => chanRows_bad_mode _ 0 h4 hex⟩

theorem c3_witness :
    getChannelNamesUnits "Channel Name Unit Direction\n14 Z_raw m both\n0 Current A BOTH" =
      Except.ok (["Z raw", "Current"], ["m", "A"]) :=
  ((c3_channel_table "Channel Name Unit Direction\n14 Z_raw m both\n0 Current A BOTH"
    (by decide)).1 (by decide)).trans (by decide)

theorem ws_agree (c : Char) (hc : c.toNat ∉ ([28, 29, 30, 31, 133, 160] : List Nat)) :
    pyIsSpaceChar c = bytesIsSpaceChar c := by
  simp only [List.mem_cons, List.not_mem_nil, or_false, not_or] at hc
  rw [Bool.eq_iff_iff]
  simp only [pyIsSpaceChar, bytesIsSpaceChar, List.contains, List.elem_eq_mem,
    decide_eq_true_eq, List.mem_cons, List.not_mem_nil, or_false]
  omega

theorem dropWhile_congr' (p q : Char → Bool) (l : List Char)
    (h : ∀ c ∈ l, p c = q c) : l.dropWhile p = l.dropWhile q := by
  induction l with
  | nil => rfl
  | cons c t ih =>
    have hc := h c (by simp)
    by_cases hq : q c = true
    · simp only [List.dropWhile_cons, hc, hq, if_true]
      exact ih (fun x hx => h x (by simp [hx]))
    · rw [List.dropWhile_cons, List.dropWhile_cons, hc]
      simp [hq]

theorem stripList_congr (p q : Char → Bool) (l : List Char)
    (h : ∀ c ∈ l, p c = q c) : stripList p l = stripList q l := by
  unfold stripList
  rw [dropWhile_congr' p q l h]
  rw [dropWhile_congr' p q (l.dropWhile q).reverse
    (fun c hc => h c ((List.dropWhile_sublist q).subset (List.mem_reverse.mp hc)))]

theorem c8_counterexample :
    textPassIsTerm (":SCANIT_END:".data ++ [Char.ofNat 160]) = true ∧
      binPassIsTerm (":SCANIT_END:".data ++ [Char.ofNat 160]) = false := by
  refine ⟨by decide, by decide⟩

/-- C8 (amended): the two passes do not use the same comparison — the text
pass strips Unicode whitespace from the Latin-1 decoding of the line while
the binary pass strips only ASCII whitespace from the raw bytes. The two
terminator classifications agree exactly on lines free of the bytes on which
the two whitespace sets differ (0x1C-0x1F, 0x85 NEL, 0xA0 NBSP); a line such
as the terminator followed by 0xA0 is classified terminator by the text pass
but not by the binary pass. -/
theorem c8_strip_agreement (line : List Char)
    (h : ∀ c ∈ line, c.toNat ∉ ([28, 29, 30, 31, 133, 160] : List Nat)) :
    textPassIsTerm line = binPassIsTerm line := by
  have hs : stripList pyIsSpaceChar line = stripList bytesIsSpaceChar line :=
    stripList_congr _ _ _ (fun c hc => ws_agree c (h c hc))
  unfold textPassIsTerm binPassIsTerm pyStrip
  rw [Bool.eq_iff_iff]
  simp [hs, String.ext_iff]

theorem c8_witness :
    textPassIsTerm "  :SCANIT_END:\t".data = binPassIsTerm "  :SCANIT_END:\t".data :=
  c8_strip_agreement "  :SCANIT_END:\t".data (by decide)

theorem splitByteAux_eq (l acc : List Char) :
    splitByteAux l acc =
      if acc = [] ∧ l = [] then []
      else (acc.reverse ++ (readByteLine l).1) :: splitByteLines (readByteLine l).2 := by
  induction l generalizing acc with
  | nil =>
    by_cases ha : acc = []
    · simp [splitByteAux, ha, readByteLine]
    · simp [splitByteAux, ha, readByteLine, splitByteLines]
  | cons c rest ih =>
    by_cases hc : c = '\n'
    · subst hc
      simp [splitByteAux, readByteLine, splitByteLines]
    · simp only [splitByteAux, readByteLine, if_neg hc]
      rw [ih (c :: acc)]
      simp [hc]

theorem splitByteLines_ne_nil (l : List Char) (hl : l ≠ []) :
    splitByteLines l = (readByteLine l).1 :: splitByteLines (readByteLine l).2 := by
  unfold splitByteLines
  rw [splitByteAux_eq]
  simp only [hl, and_false, if_false, List.reverse_nil, List.nil_append]
  rfl

theorem scanTerm_no_term (fuel : Nat) (file : List Char)
    (h : ∀ bl ∈ splitByteLines file, binPassIsTerm bl = false) :
    scanTerm fuel file = none := by
  induction fuel generalizing file with
  | zero => rfl
  | succ n ih =>
    by_cases hf : file = []
    · subst hf
      have hterm : binPassIsTerm ([] : List Char) = false := by decide
      simp only [scanTerm, readByteLine, hterm, Bool.false_eq_true, if_false]
      exact ih [] (by simp [splitByteLines, splitByteAux])
    · have hsp := splitByteLines_ne_nil file hf
      have h1 : binPassIsTerm (readByteLine file).1 = false := h _ (by rw [hsp]; simp)
      simp only [scanTerm, h1, Bool.false_eq_true, if_false]
      exact ih _ (fun bl hbl => h bl (by rw [hsp]; exact List.mem_cons_of_mem _ hbl))

theorem c9_counterexample :
    splitTextLines [] = [] ∧
      loadFuel 0 [] = some (Except.error (DecodeError.missingField "SCAN_FILE")) := by
  refine ⟨rfl, by decide⟩

/-- C9 (amended): on a source with no byte-line that byte-strips to the
terminator and whose header/metadata phases nevertheless succeed, the binary
boundary re-scan of a full (`header_only=false`) load never exits: at end of
file `readline` returns empty lines forever, which never match, so for every
fuel bound the load is still running. (A terminator-free source on which
the metadata phase fails — e.g. an empty file — terminates with that phase's
error instead, per the counterexample.) -/
theorem c9_scan_divergence (file : List Char) (fuel : Nat)
    (hmeta : (parseMetadata (parseHeaderMap (splitTextLines file))).isOk = true)
    (hnoterm : ∀ bl ∈ splitByteLines file, binPassIsTerm bl = false) :
    loadFuel fuel file = none := by
  cases hm : parseMetadata (parseHeaderMap (splitTextLines file)) with
  | error e => rw [hm] at hmeta; simp [Except.isOk, Except.toBool] at hmeta
  | ok md => simp only [loadFuel, hm, scanTerm_no_term fuel file hnoterm]

/-- A complete, metadata-valid header that never writes a terminator line. -/
def noTermFile : List Char :=
  (":SCAN_FILE:\nfoo.sxm\n:SCAN_PIXELS:\n2 2\n:SCAN_RANGE:\n1.5e-8 1.5e-8\n"
    ++ ":SCAN_OFFSET:\n0 0\n:SCAN_ANGLE:\n0\n:SCAN_DIR:\nup\n:BIAS:\n1\n"
    ++ ":Z-CONTROLLER:\na\tb\tc\td\te\tf\tg\th\t1\t3 m\n"
    ++ ":REC_DATE:\n15.03.2024\n:REC_TIME:\n14:30:05\n:ACQ_TIME:\n10\n"
    ++ ":DATA_INFO:\nChannel Name Unit Direction\n14 Z m both\n:END:\n").data

theorem c9_witness : loadFuel 1000 noTermFile = none :=
  c9_scan_divergence noTermFile 1000 (by decide) (by decide)
